import Mathlib

/-!
Verification of casgate: the subscription state table of
`pt_af_logic/types/subscription.go`, the certificate masking of
`object/cert.go`, the query session of `orm/ormer_session.go` and the policy
handler of `controllers/enforcer.go`.

Each part is a shallow embedding of the source followed by the properties of
it.  Go values are embedded as follows.
* A string-typed name (`UserRole`, `SubscriptionStateName`,
  `SubscriptionFieldName`) is a `String`.
* A slice is an `Option (List _)`: `none` is the nil slice, `some xs` a
  non-nil slice with elements `xs`.
* A map is an `Option (List (key × value))`: `none` is the nil map,
  `some es` a map holding the entries `es` (keys pairwise different, as the
  Go compiler demands of a map literal).  Indexing a map with a key it does
  not hold gives the zero value of the value type.
* A pointer to a certificate is an address into a heap of certificates, or
  nil; an `error` is its message, or nil.
-/

namespace Casgate

/-! ## Names -/

abbrev UserRole := String

def UserRoleUnknown : UserRole := "unknown"
def UserRoleGlobalAdmin : UserRole := "admin"
def UserRolePartner : UserRole := "partner"
def UserRoleDistributor : UserRole := "distributor"

abbrev SubscriptionStateName := String

def SubscriptionNew : SubscriptionStateName := "New"
def SubscriptionPending : SubscriptionStateName := "Pending"
def SubscriptionPreAuthorized : SubscriptionStateName := "PreAuthorized"
def SubscriptionUnauthorized : SubscriptionStateName := "Unauthorized"
def SubscriptionAuthorized : SubscriptionStateName := "Authorized"
def SubscriptionStarted : SubscriptionStateName := "Started"
def SubscriptionPreFinished : SubscriptionStateName := "PreFinished"
def SubscriptionFinished : SubscriptionStateName := "Finished"
def SubscriptionCancelled : SubscriptionStateName := "Cancelled"

abbrev SubscriptionFieldName := String

def SubscriptionFieldNameName : SubscriptionFieldName := "Name"
def SubscriptionFieldNameDisplayName : SubscriptionFieldName := "Display Name"
def SubscriptionFieldNameStartDate : SubscriptionFieldName := "Start Date"
def SubscriptionFieldNameEndDate : SubscriptionFieldName := "End Date"
def SubscriptionFieldNameSubUser : SubscriptionFieldName := "Sub user"
def SubscriptionFieldNameSubPlan : SubscriptionFieldName := "Sub plan"
def SubscriptionFieldNameDiscount : SubscriptionFieldName := "Discount"
def SubscriptionFieldNameDescription : SubscriptionFieldName := "Description"
def SubscriptionFieldNameComment : SubscriptionFieldName := "Comment"

/-! ## Slices, maps and the membership tests -/

/-- The shared loop of both membership tests: range over the elements of the
slice, return true at the first element equal to `name`, and return false once
the elements are exhausted. -/
def rangeContains (name : String) : List String → Bool
  | [] => false
  | value :: rest => if value = name then true else rangeContains name rest

abbrev SubscriptionStateNames := Option (List SubscriptionStateName)

/-- The method `SubscriptionStateNames.Contains`: the loop alone; ranging over
a nil slice runs no iteration. -/
def SubscriptionStateNames.Contains (s : SubscriptionStateNames)
    (name : SubscriptionStateName) : Bool :=
  match s with
  | none => false
  | some values => rangeContains name values

abbrev SubscriptionFieldNames := Option (List SubscriptionFieldName)

/-- The method `SubscriptionFieldNames.Contains`: the explicit `s == nil`
guard, then the loop. -/
def SubscriptionFieldNames.Contains (s : SubscriptionFieldNames)
    (name : SubscriptionFieldName) : Bool :=
  if s = none then false
  else
    match s with
    | none => false
    | some values => rangeContains name values

/-- A Go map with string keys. -/
abbrev GoMap (V : Type) := Option (List (String × V))

/-- The index expression `m[k]`: the value stored under `k`, or `zero` (the
zero value of the value type) when `m` is nil or does not hold `k`. -/
def GoMap.index {V : Type} (zero : V) (m : GoMap V) (k : String) : V :=
  match m with
  | none => zero
  | some entries =>
    match entries.find? (fun e => e.1 = k) with
    | some e => e.2
    | none => zero

/-- The presence flag of the two-result index expression on `m[k]`: whether
`k` is a key of `m`. -/
def GoMap.hasKey {V : Type} (m : GoMap V) (k : String) : Bool :=
  match m with
  | none => false
  | some entries => entries.any (fun e => e.1 = k)

abbrev SubscriptionFieldPermissions := GoMap SubscriptionFieldNames
abbrev SubscriptionTransitions := GoMap SubscriptionStateNames

structure SubscriptionState where
  FieldPermissions : SubscriptionFieldPermissions
  Transitions : SubscriptionTransitions

/-- The zero value of `SubscriptionState`: both maps nil. -/
def SubscriptionState.zero : SubscriptionState :=
  { FieldPermissions := none, Transitions := none }

/-! ## The state table -/

def SubscriptionStateMap : GoMap SubscriptionState :=
  some [
    (SubscriptionNew,
      { FieldPermissions := some [
          (UserRolePartner, some [
            SubscriptionFieldNameName,
            SubscriptionFieldNameDisplayName,
            SubscriptionFieldNameSubUser,
            SubscriptionFieldNameSubPlan,
            SubscriptionFieldNameDiscount,
            SubscriptionFieldNameDescription])],
        Transitions := some [
          (UserRolePartner, some [SubscriptionPending])] }),
    (SubscriptionPending,
      { FieldPermissions := some [
          (UserRolePartner, some [
            SubscriptionFieldNameDisplayName,
            SubscriptionFieldNameSubPlan,
            SubscriptionFieldNameDiscount,
            SubscriptionFieldNameDescription,
            SubscriptionFieldNameComment])],
        Transitions := none }),
    (SubscriptionPreAuthorized,
      { FieldPermissions := some [
          (UserRolePartner, some [
            SubscriptionFieldNameDisplayName,
            SubscriptionFieldNameDescription])],
        Transitions := some [
          (UserRolePartner, some [SubscriptionAuthorized, SubscriptionCancelled])] }),
    (SubscriptionUnauthorized,
      { FieldPermissions := some [
          (UserRolePartner, some [
            SubscriptionFieldNameDisplayName,
            SubscriptionFieldNameSubPlan,
            SubscriptionFieldNameDiscount,
            SubscriptionFieldNameDescription])],
        Transitions := some [
          (UserRolePartner, some [SubscriptionPending, SubscriptionCancelled])] }),
    (SubscriptionAuthorized,
      { FieldPermissions := some [
          (UserRoleDistributor, some [
            SubscriptionFieldNameDisplayName,
            SubscriptionFieldNameStartDate,
            SubscriptionFieldNameDescription])],
        Transitions := some [
          (UserRoleDistributor, some [SubscriptionStarted, SubscriptionCancelled])] }),
    (SubscriptionStarted,
      { FieldPermissions := some [
          (UserRolePartner, some [
            SubscriptionFieldNameDisplayName,
            SubscriptionFieldNameDescription])],
        Transitions := some [
          (UserRolePartner, some [SubscriptionPreFinished])] }),
    (SubscriptionPreFinished,
      { FieldPermissions := some [
          (UserRoleDistributor, some [
            SubscriptionFieldNameDisplayName,
            SubscriptionFieldNameEndDate,
            SubscriptionFieldNameDescription])],
        Transitions := some [
          (UserRoleDistributor, some [SubscriptionFinished])] }),
    (SubscriptionFinished,
      { FieldPermissions := some [
          (UserRolePartner, some [
            SubscriptionFieldNameDisplayName,
            SubscriptionFieldNameDescription])],
        Transitions := none }),
    (SubscriptionCancelled,
      { FieldPermissions := some [
          (UserRolePartner, some [
            SubscriptionFieldNameDisplayName,
            SubscriptionFieldNameDescription])],
        Transitions := none })]

/-- The expression `SubscriptionStateMap[s]`. -/
def stateOf (s : SubscriptionStateName) : SubscriptionState :=
  GoMap.index SubscriptionState.zero SubscriptionStateMap s

/-- The expression `SubscriptionStateMap[s].Transitions[r]`; the zero value of
a slice type is the nil slice. -/
def transitionsOf (s : SubscriptionStateName) (r : UserRole) : SubscriptionStateNames :=
  GoMap.index none (stateOf s).Transitions r

/-- The expression `SubscriptionStateMap[s].FieldPermissions[r]`. -/
def fieldPermissionsOf (s : SubscriptionStateName) (r : UserRole) : SubscriptionFieldNames :=
  GoMap.index none (stateOf s).FieldPermissions r

/-- Modelled from the spec: the table check of the Field Authorizer
(`authorizeFields` is not among the sources): the changed fields that are not
in `FieldPermissions[role]` of the state, in the order given.  The check passes
when this list is empty; the guard for the admin role comes before the table
check and is no part of it. -/
def offendingFields (s : SubscriptionStateName) (r : UserRole)
    (changed : List SubscriptionFieldName) : List SubscriptionFieldName :=
  changed.filter (fun f => !(SubscriptionFieldNames.Contains (fieldPermissionsOf s r) f))

/-- One step of the transition graph of the table, collapsed across roles. -/
def tableEdge (s t : SubscriptionStateName) : Prop :=
  ∃ r : UserRole, SubscriptionStateNames.Contains (transitionsOf s r) t = true

/-- The nine state names, in lifecycle order. -/
def allStateNames : List SubscriptionStateName :=
  [SubscriptionNew, SubscriptionPending, SubscriptionPreAuthorized,
   SubscriptionUnauthorized, SubscriptionAuthorized, SubscriptionStarted,
   SubscriptionPreFinished, SubscriptionFinished, SubscriptionCancelled]

/-- The transitions written in the table, as (state, role, target) triples in
the order of the source. -/
def tableTransitions : List (SubscriptionStateName × UserRole × SubscriptionStateName) :=
  [(SubscriptionNew, UserRolePartner, SubscriptionPending),
   (SubscriptionPreAuthorized, UserRolePartner, SubscriptionAuthorized),
   (SubscriptionPreAuthorized, UserRolePartner, SubscriptionCancelled),
   (SubscriptionUnauthorized, UserRolePartner, SubscriptionPending),
   (SubscriptionUnauthorized, UserRolePartner, SubscriptionCancelled),
   (SubscriptionAuthorized, UserRoleDistributor, SubscriptionStarted),
   (SubscriptionAuthorized, UserRoleDistributor, SubscriptionCancelled),
   (SubscriptionStarted, UserRolePartner, SubscriptionPreFinished),
   (SubscriptionPreFinished, UserRoleDistributor, SubscriptionFinished)]

/-- The position of a state name in the lifecycle order (nine for a name that
is none of the nine). -/
def lifecycleRank (s : SubscriptionStateName) : Nat :=
  allStateNames.indexOf s

/-- The constructor `NewStateChangeForbiddenError`.  An error value is
embedded as its message; the format verb prints the state name through its
`String` method, which is the name itself. -/
def NewStateChangeForbiddenError (statusName : SubscriptionStateName) : String :=
  "You are not allowed to change the state to " ++ statusName

/-- Modelled from the spec: a forbidden transition attempt, with the three
components the spec lists for `StateChangeForbidden` (the caller that rejects
an attempt is not among the sources). -/
structure StateChangeAttempt where
  source : SubscriptionStateName
  target : SubscriptionStateName
  role : UserRole
deriving DecidableEq

/-- The error for a forbidden attempt: `NewStateChangeForbiddenError` has the
target state as its only parameter. -/
def stateChangeForbiddenFor (a : StateChangeAttempt) : String :=
  NewStateChangeForbiddenError a.target

/-! ## Certificates (`object/cert.go`)

A `*Cert` is an address into a heap of certificates or nil; the functions
that write through the pointer take the heap and give back the new heap.  The
field `Type` of the source is `Type_` here. -/

structure Cert where
  Owner : String
  Name : String
  CreatedTime : String
  DisplayName : String
  Scope : String
  Type_ : String
  CryptoAlgorithm : String
  BitSize : Int
  ExpireInYears : Int
  Certificate : String
  PrivateKey : String
deriving DecidableEq

/-- The certificates stored at each address. -/
abbrev CertHeap := Nat → Cert

/-- A `*Cert`: nil, or the address of a certificate. -/
abbrev CertPtr := Option Nat

/-- The function `GetMaskedCert`: nil for nil; otherwise the private key of
the certificate pointed to is overwritten with three stars when it is not
empty, and the same pointer is returned. -/
def GetMaskedCert (heap : CertHeap) (cert : CertPtr) : CertHeap × CertPtr :=
  match cert with
  | none => (heap, none)
  | some a =>
    if (heap a).PrivateKey ≠ "" then
      (Function.update heap a { heap a with PrivateKey := "***" }, some a)
    else
      (heap, some a)

/-- The loop of `GetMaskedCerts`: `GetMaskedCert` is called on every element
in turn; the assignment to the loop variable leaves the slice as it is. -/
def maskCertsLoop (heap : CertHeap) : List CertPtr → CertHeap
  | [] => heap
  | cert :: rest => maskCertsLoop (GetMaskedCert heap cert).1 rest

/-- The function `GetMaskedCerts`: the heap after the call, the returned slice
and the returned error (nil is `none`). -/
def GetMaskedCerts (heap : CertHeap) (certs : Option (List CertPtr)) (err : Option String) :
    CertHeap × Option (List CertPtr) × Option String :=
  match err with
  | some e => (heap, none, some e)
  | none => (maskCertsLoop heap (certs.getD []), certs, none)

/-- The value a certificate has after masking, used to describe the heap. -/
def maskedValue (c : Cert) : Cert :=
  if c.PrivateKey ≠ "" then { c with PrivateKey := "***" } else c

/-! ## Query sessions (`orm/ormer_session.go`)

The session of the query builder is embedded as the list of the calls made on
it, in order.  The helpers `util.SnakeString` and
`util.IsFieldValueAllowedForDB` are not among the sources and are parameters
of the embedding. -/

/-- One call on a query session. -/
inductive SessionCall where
  | Limit (limit offset : Int)
  | And (query : String) (args : List String)
  | Asc (column : String)
  | Desc (column : String)
deriving DecidableEq

/-- The test `regexp.MatchString` with the pattern `^[a-z_]+$`: the text is
not empty and each of its characters is a lower-case ASCII letter or an
underscore.  The pattern is a valid constant, so the error result is nil. -/
def matchLowerSnake (text : String) : Bool :=
  !text.data.isEmpty &&
    text.data.all (fun c => (decide ('a' ≤ c) && decide (c ≤ 'z')) || decide (c = '_'))

/-- The function `GetSession`, as the calls it makes on a fresh session. -/
def GetSession (SnakeString : String → String) (IsFieldValueAllowedForDB : String → Bool)
    (owner : String) (offset limit : Int) (field value sortField sortOrder : String) :
    List SessionCall :=
  let session0 : List SessionCall :=
    if offset ≠ -1 ∧ limit ≠ -1 then [SessionCall.Limit limit offset] else []
  let session1 : List SessionCall :=
    if owner ≠ "" then session0 ++ [SessionCall.And "LOWER(owner) = LOWER(?)" [owner]]
    else session0
  let field1 : String := if !matchLowerSnake (SnakeString field) then "" else field
  let session2 : List SessionCall :=
    if field1 ≠ "" then
      let filterValue : String := if value ≠ "" then "%" ++ value ++ "%" else ""
      if IsFieldValueAllowedForDB field1 then
        session1 ++
          [SessionCall.And ("LOWER(" ++ SnakeString field1 ++ ") LIKE LOWER(?)") [filterValue]]
      else session1
    else session1
  let sortField1 : String :=
    if sortField = "" ∨ sortOrder = "" then "created_time" else sortField
  let sortField2 : String :=
    if !matchLowerSnake (SnakeString sortField1) then "created_time" else sortField1
  if sortOrder = "ascend" then session2 ++ [SessionCall.Asc (SnakeString sortField2)]
  else session2 ++ [SessionCall.Desc (SnakeString sortField2)]

/-- The calls of `GetSession` before the order call: the limit, the owner
condition and the filter, as in the body of `GetSession`. -/
def sessionBeforeOrder (SnakeString : String → String)
    (IsFieldValueAllowedForDB : String → Bool) (owner : String) (offset limit : Int)
    (field value : String) : List SessionCall :=
  let session0 : List SessionCall :=
    if offset ≠ -1 ∧ limit ≠ -1 then [SessionCall.Limit limit offset] else []
  let session1 : List SessionCall :=
    if owner ≠ "" then session0 ++ [SessionCall.And "LOWER(owner) = LOWER(?)" [owner]]
    else session0
  let field1 : String := if !matchLowerSnake (SnakeString field) then "" else field
  if field1 ≠ "" then
    let filterValue : String := if value ≠ "" then "%" ++ value ++ "%" else ""
    if IsFieldValueAllowedForDB field1 then
      session1 ++
        [SessionCall.And ("LOWER(" ++ SnakeString field1 ++ ") LIKE LOWER(?)") [filterValue]]
    else session1
  else session1

/-- The column of the order call of `GetSession`, as in its body. -/
def orderColumn (SnakeString : String → String) (sortField sortOrder : String) : String :=
  let sortField1 : String :=
    if sortField = "" ∨ sortOrder = "" then "created_time" else sortField
  let sortField2 : String :=
    if !matchLowerSnake (SnakeString sortField1) then "created_time" else sortField1
  SnakeString sortField2

/-! ## The policy handler (`controllers/enforcer.go`) -/

/-- The rule type of the adapter library, with its string columns. -/
structure CasbinRule where
  Ptype : String
  V0 : String
  V1 : String
  V2 : String
  V3 : String
  V4 : String
  V5 : String
deriving DecidableEq

/-- How a run of the handler ends: an error response, a run-time panic of an
index expression (with the index and the length of the slice), or the served
answer. -/
inductive HandlerResult where
  | responseError (message : String)
  | indexOutOfRange (index length : Nat)
  | served (affected : Bool)
deriving DecidableEq

/-- The handler `ApiController.UpdatePolicy` after the rights check.  The
argument `body` is the result of `json.Unmarshal` on the request body: an
error, or the decoded slice (nil for the JSON value null).  The functions
`object.UpdatePolicy` and `util.CasbinToSlice` are not among the sources and
are parameters.  The arguments of the call are evaluated from left to right,
so the first index expression out of range is the one that panics. -/
def UpdatePolicy
    (objectUpdatePolicy : String → String → List String → List String → Except String Bool)
    (CasbinToSlice : CasbinRule → List String) (id : String)
    (body : Except String (Option (List CasbinRule))) : HandlerResult :=
  match body with
  | Except.error e => HandlerResult.responseError e
  | Except.ok decoded =>
    let policies : List CasbinRule := decoded.getD []
    match policies[0]? with
    | none => HandlerResult.indexOutOfRange 0 policies.length
    | some first =>
      match policies[1]? with
      | none => HandlerResult.indexOutOfRange 1 policies.length
      | some second =>
        match objectUpdatePolicy id first.Ptype (CasbinToSlice first) (CasbinToSlice second) with
        | Except.error e => HandlerResult.responseError e
        | Except.ok affected => HandlerResult.served affected

/-! ## Lookup lemmas -/

theorem rangeContains_iff_mem (name : String) (values : List String) :
    rangeContains name values = true ↔ name ∈ values := by
  induction values with
  | nil => simp [rangeContains]
  | cons v rest ih =>
    by_cases h : v = name
    · simp [rangeContains, h]
    · have h2 : ¬ name = v := fun e => h e.symm
      simp [rangeContains, h, h2, ih]

theorem stateNames_contains_nil (t : SubscriptionStateName) :
    SubscriptionStateNames.Contains none t = false := rfl

theorem stateNames_contains_some (values : List SubscriptionStateName)
    (t : SubscriptionStateName) :
    SubscriptionStateNames.Contains (some values) t = true ↔ t ∈ values := by
  simp [SubscriptionStateNames.Contains, rangeContains_iff_mem]

theorem fieldNames_contains_nil (f : SubscriptionFieldName) :
    SubscriptionFieldNames.Contains none f = false := rfl

theorem fieldNames_contains_some (values : List SubscriptionFieldName)
    (f : SubscriptionFieldName) :
    SubscriptionFieldNames.Contains (some values) f = true ↔ f ∈ values := by
  simp [SubscriptionFieldNames.Contains, rangeContains_iff_mem]

theorem index_nil {V : Type} (zero : V) (k : String) :
    GoMap.index zero none k = zero := rfl

theorem index_of_not_hasKey {V : Type} (zero : V) (m : GoMap V) (k : String)
    (h : GoMap.hasKey m k = false) : GoMap.index zero m k = zero := by
  cases m with
  | none => rfl
  | some entries =>
    have hfind : entries.find? (fun e => decide (e.1 = k)) = none := by
      rw [List.find?_eq_none]
      intro e he
      simp only [GoMap.hasKey] at h
      have := List.any_eq_false.mp h e he
      simpa using this
    simp [GoMap.index, hfind]

/-- The entry of a single-role map, read at any role. -/
theorem index_single {V : Type} (zero : V) (k0 : String) (v : V) (k : String) :
    GoMap.index zero (some [(k0, v)]) k = if k0 = k then v else zero := by
  by_cases h : k0 = k <;> simp [GoMap.index, List.find?, h]

theorem hasKey_single {V : Type} (k0 : String) (v : V) (k : String) :
    GoMap.hasKey (some [(k0, v)]) k = decide (k0 = k) := by
  simp [GoMap.hasKey]

/-- Every key of the table is one of the nine state names. -/
theorem hasKey_table_iff (s : SubscriptionStateName) :
    GoMap.hasKey SubscriptionStateMap s = true ↔ s ∈ allStateNames := by
  simp only [GoMap.hasKey, SubscriptionStateMap, allStateNames, List.any_cons, List.any_nil,
    Bool.or_false, Bool.or_eq_true, decide_eq_true_eq, List.mem_cons, List.mem_singleton,
    List.not_mem_nil, or_false]
  constructor <;> intro h <;> (rcases h with h | h | h | h | h | h | h | h | h <;> simp [h])

/-- A state name that is no key of the table has the zero state. -/
theorem stateOf_of_not_key (s : SubscriptionStateName)
    (h : GoMap.hasKey SubscriptionStateMap s = false) :
    stateOf s = SubscriptionState.zero :=
  index_of_not_hasKey _ _ _ h

theorem transitions_New : (stateOf SubscriptionNew).Transitions =
    some [(UserRolePartner, some [SubscriptionPending])] := by decide
theorem transitions_Pending : (stateOf SubscriptionPending).Transitions = none := by decide
theorem transitions_PreAuthorized : (stateOf SubscriptionPreAuthorized).Transitions =
    some [(UserRolePartner, some [SubscriptionAuthorized, SubscriptionCancelled])] := by decide
theorem transitions_Unauthorized : (stateOf SubscriptionUnauthorized).Transitions =
    some [(UserRolePartner, some [SubscriptionPending, SubscriptionCancelled])] := by decide
theorem transitions_Authorized : (stateOf SubscriptionAuthorized).Transitions =
    some [(UserRoleDistributor, some [SubscriptionStarted, SubscriptionCancelled])] := by decide
theorem transitions_Started : (stateOf SubscriptionStarted).Transitions =
    some [(UserRolePartner, some [SubscriptionPreFinished])] := by decide
theorem transitions_PreFinished : (stateOf SubscriptionPreFinished).Transitions =
    some [(UserRoleDistributor, some [SubscriptionFinished])] := by decide
theorem transitions_Finished : (stateOf SubscriptionFinished).Transitions = none := by decide
theorem transitions_Cancelled : (stateOf SubscriptionCancelled).Transitions = none := by decide

theorem fieldPermissions_Finished : (stateOf SubscriptionFinished).FieldPermissions =
    some [(UserRolePartner, some [SubscriptionFieldNameDisplayName,
      SubscriptionFieldNameDescription])] := by decide
theorem fieldPermissions_Cancelled : (stateOf SubscriptionCancelled).FieldPermissions =
    some [(UserRolePartner, some [SubscriptionFieldNameDisplayName,
      SubscriptionFieldNameDescription])] := by decide

theorem transitionsOf_of_not_key (s : SubscriptionStateName) (r : UserRole)
    (h : GoMap.hasKey SubscriptionStateMap s = false) : transitionsOf s r = none := by
  unfold transitionsOf
  rw [stateOf_of_not_key s h]
  rfl

/-- The membership test on the table agrees with the list of its transitions. -/
theorem contains_transitions_iff (s : SubscriptionStateName) (r : UserRole)
    (t : SubscriptionStateName) :
    SubscriptionStateNames.Contains (transitionsOf s r) t = true ↔
      (s, r, t) ∈ tableTransitions := by
  constructor
  · intro h
    by_cases hk : GoMap.hasKey SubscriptionStateMap s = true
    · rw [hasKey_table_iff] at hk
      simp only [allStateNames, List.mem_cons, List.mem_singleton, List.not_mem_nil,
        or_false] at hk
      rcases hk with hk | hk | hk | hk | hk | hk | hk | hk | hk <;> subst hk <;>
        unfold transitionsOf at h
      · rw [transitions_New, index_single] at h
        split at h
        · rename_i hr; subst hr
          rw [stateNames_contains_some] at h
          simp only [List.mem_singleton] at h
          subst h; decide
        · exact absurd h (by simp [stateNames_contains_nil])
      · rw [transitions_Pending, index_nil] at h
        exact absurd h (by simp [stateNames_contains_nil])
      · rw [transitions_PreAuthorized, index_single] at h
        split at h
        · rename_i hr; subst hr
          rw [stateNames_contains_some] at h
          simp only [List.mem_cons, List.mem_singleton, List.not_mem_nil, or_false] at h
          rcases h with h | h <;> subst h <;> decide
        · exact absurd h (by simp [stateNames_contains_nil])
      · rw [transitions_Unauthorized, index_single] at h
        split at h
        · rename_i hr; subst hr
          rw [stateNames_contains_some] at h
          simp only [List.mem_cons, List.mem_singleton, List.not_mem_nil, or_false] at h
          rcases h with h | h <;> subst h <;> decide
        · exact absurd h (by simp [stateNames_contains_nil])
      · rw [transitions_Authorized, index_single] at h
        split at h
        · rename_i hr; subst hr
          rw [stateNames_contains_some] at h
          simp only [List.mem_cons, List.mem_singleton, List.not_mem_nil, or_false] at h
          rcases h with h | h <;> subst h <;> decide
        · exact absurd h (by simp [stateNames_contains_nil])
      · rw [transitions_Started, index_single] at h
        split at h
        · rename_i hr; subst hr
          rw [stateNames_contains_some] at h
          simp only [List.mem_singleton] at h
          subst h; decide
        · exact absurd h (by simp [stateNames_contains_nil])
      · rw [transitions_PreFinished, index_single] at h
        split at h
        · rename_i hr; subst hr
          rw [stateNames_contains_some] at h
          simp only [List.mem_singleton] at h
          subst h; decide
        · exact absurd h (by simp [stateNames_contains_nil])
      · rw [transitions_Finished, index_nil] at h
        exact absurd h (by simp [stateNames_contains_nil])
      · rw [transitions_Cancelled, index_nil] at h
        exact absurd h (by simp [stateNames_contains_nil])
    · rw [Bool.not_eq_true] at hk
      rw [transitionsOf_of_not_key s r hk] at h
      exact absurd h (by simp [stateNames_contains_nil])
  · intro h
    simp only [tableTransitions, List.mem_cons, List.mem_singleton, List.not_mem_nil,
      or_false, Prod.mk.injEq] at h
    rcases h with h | h | h | h | h | h | h | h | h <;>
      (obtain ⟨h1, h2, h3⟩ := h; subst h1; subst h2; subst h3; decide)

/-- Following table transitions from New never leaves New and Pending. -/
theorem reachable_from_New (t : SubscriptionStateName)
    (h : Relation.ReflTransGen tableEdge SubscriptionNew t) :
    t = SubscriptionNew ∨ t = SubscriptionPending := by
  induction h with
  | refl => exact Or.inl rfl
  | tail _ hstep ih =>
    obtain ⟨r, hr⟩ := hstep
    rw [contains_transitions_iff] at hr
    simp only [tableTransitions, List.mem_cons, List.mem_singleton, List.not_mem_nil,
      or_false, Prod.mk.injEq] at hr
    rcases ih with ih | ih <;> subst ih
    · rcases hr with hr | hr | hr | hr | hr | hr | hr | hr | hr
      · exact Or.inr hr.2.2
      all_goals exact absurd hr.1 (by decide)
    · rcases hr with hr | hr | hr | hr | hr | hr | hr | hr | hr <;>
        exact absurd hr.1 (by decide)

/-- A pair of states that no written transition joins is no edge of the table. -/
theorem not_tableEdge_of (a b : SubscriptionStateName)
    (h : tableTransitions.any (fun e => decide (e.1 = a ∧ e.2.2 = b)) = false) :
    ¬ tableEdge a b := by
  rintro ⟨r, hr⟩
  rw [contains_transitions_iff] at hr
  have := List.any_eq_false.mp h (a, r, b) hr
  simp at this

/-- In every state of the table `FieldPermissions` holds one role, partner or
distributor. -/
theorem fieldPermissions_shape (s : SubscriptionStateName) (hs : s ∈ allStateNames) :
    ∃ (k0 : UserRole) (v : SubscriptionFieldNames),
      (stateOf s).FieldPermissions = some [(k0, v)] ∧
      (k0 = UserRolePartner ∨ k0 = UserRoleDistributor) := by
  simp only [allStateNames, List.mem_cons, List.mem_singleton, List.not_mem_nil,
    or_false] at hs
  rcases hs with h | h | h | h | h | h | h | h | h <;> subst h
  · exact ⟨_, _, rfl, Or.inl rfl⟩
  · exact ⟨_, _, rfl, Or.inl rfl⟩
  · exact ⟨_, _, rfl, Or.inl rfl⟩
  · exact ⟨_, _, rfl, Or.inl rfl⟩
  · exact ⟨_, _, rfl, Or.inr rfl⟩
  · exact ⟨_, _, rfl, Or.inl rfl⟩
  · exact ⟨_, _, rfl, Or.inr rfl⟩
  · exact ⟨_, _, rfl, Or.inl rfl⟩
  · exact ⟨_, _, rfl, Or.inl rfl⟩

/-- In every state of the table `Transitions` is nil or holds one role, partner
or distributor. -/
theorem transitions_shape (s : SubscriptionStateName) (hs : s ∈ allStateNames) :
    (stateOf s).Transitions = none ∨
    ∃ (k0 : UserRole) (v : SubscriptionStateNames),
      (stateOf s).Transitions = some [(k0, v)] ∧
      (k0 = UserRolePartner ∨ k0 = UserRoleDistributor) := by
  simp only [allStateNames, List.mem_cons, List.mem_singleton, List.not_mem_nil,
    or_false] at hs
  rcases hs with h | h | h | h | h | h | h | h | h <;> subst h
  · exact Or.inr ⟨_, _, rfl, Or.inl rfl⟩
  · exact Or.inl rfl
  · exact Or.inr ⟨_, _, rfl, Or.inl rfl⟩
  · exact Or.inr ⟨_, _, rfl, Or.inl rfl⟩
  · exact Or.inr ⟨_, _, rfl, Or.inr rfl⟩
  · exact Or.inr ⟨_, _, rfl, Or.inl rfl⟩
  · exact Or.inr ⟨_, _, rfl, Or.inr rfl⟩
  · exact Or.inl rfl
  · exact Or.inl rfl

/-- A role that is a key of `FieldPermissions` or of `Transitions` of any state
name is partner or distributor. -/
theorem role_key_cases (s : SubscriptionStateName) (r : UserRole)
    (h : GoMap.hasKey (stateOf s).FieldPermissions r = true ∨
      GoMap.hasKey (stateOf s).Transitions r = true) :
    r = UserRolePartner ∨ r = UserRoleDistributor := by
  by_cases hk : GoMap.hasKey SubscriptionStateMap s = true
  · rw [hasKey_table_iff] at hk
    rcases h with h | h
    · obtain ⟨k0, v, hv, hk0⟩ := fieldPermissions_shape s hk
      rw [hv, hasKey_single] at h
      have : k0 = r := by simpa using h
      subst this; exact hk0
    · rcases transitions_shape s hk with hn | ⟨k0, v, hv, hk0⟩
      · rw [hn] at h; exact absurd h (by simp [GoMap.hasKey])
      · rw [hv, hasKey_single] at h
        have : k0 = r := by simpa using h
        subst this; exact hk0
  · rw [Bool.not_eq_true] at hk
    rw [stateOf_of_not_key s hk] at h
    rcases h with h | h <;> exact absurd h (by simp [GoMap.hasKey, SubscriptionState.zero])

/-- A state that no written transition targets is in no transition set. -/
theorem not_target_of (t : SubscriptionStateName)
    (h : tableTransitions.any (fun e => decide (e.2.2 = t)) = false)
    (s : SubscriptionStateName) (r : UserRole) :
    SubscriptionStateNames.Contains (transitionsOf s r) t = false := by
  rw [← Bool.not_eq_true, contains_transitions_iff]
  intro hmem
  have := List.any_eq_false.mp h (s, r, t) hmem
  simp at this

/-- The error message determines the target state it was built from. -/
theorem forbiddenError_injective (t₁ t₂ : SubscriptionStateName)
    (h : NewStateChangeForbiddenError t₁ = NewStateChangeForbiddenError t₂) : t₁ = t₂ := by
  unfold NewStateChangeForbiddenError at h
  have hd := congrArg String.data h
  rw [String.data_append, String.data_append] at hd
  exact String.ext (List.append_cancel_left hd)

/-! ## Lemmas on certificates -/

theorem maskedValue_idem (c : Cert) : maskedValue (maskedValue c) = maskedValue c := by
  unfold maskedValue
  by_cases h : c.PrivateKey = "" <;> simp [h]

theorem maskedValue_privateKey (c : Cert) :
    (maskedValue c).PrivateKey = if c.PrivateKey = "" then "" else "***" := by
  unfold maskedValue
  by_cases h : c.PrivateKey = "" <;> simp [h]

/-- The heap after `GetMaskedCert`, cell by cell. -/
theorem getMaskedCert_heap (heap : CertHeap) (cert : CertPtr) (b : Nat) :
    (GetMaskedCert heap cert).1 b = if cert = some b then maskedValue (heap b) else heap b := by
  cases cert with
  | none => simp [GetMaskedCert]
  | some a =>
    unfold GetMaskedCert
    by_cases hk : (heap a).PrivateKey = ""
    · by_cases hab : a = b
      · subst hab; simp [hk, maskedValue]
      · simp [hk, hab]
    · by_cases hab : a = b
      · subst hab; simp [hk, maskedValue]
      · have hba : ¬ b = a := fun e => hab e.symm
        simp [hk, hab, Function.update, hba]

theorem getMaskedCert_ptr (heap : CertHeap) (cert : CertPtr) :
    (GetMaskedCert heap cert).2 = cert := by
  cases cert with
  | none => rfl
  | some a =>
    by_cases hk : (heap a).PrivateKey = "" <;> simp [GetMaskedCert, hk]

/-- The heap after the loop of `GetMaskedCerts`, cell by cell. -/
theorem maskCertsLoop_heap (certs : List CertPtr) (heap : CertHeap) (b : Nat) :
    maskCertsLoop heap certs b =
      if some b ∈ certs then maskedValue (heap b) else heap b := by
  induction certs generalizing heap with
  | nil => simp [maskCertsLoop]
  | cons cert rest ih =>
    rw [maskCertsLoop, ih, getMaskedCert_heap]
    by_cases h1 : cert = some b
    · by_cases h2 : some b ∈ rest <;> simp [h1, h2, maskedValue_idem]
    · have h1b : ¬ some b = cert := fun e => h1 e.symm
      by_cases h2 : some b ∈ rest <;> simp [h1, h1b, h2]

/-! ## Lemmas on query sessions -/

/-- The body of `GetSession` split at its order call. -/
theorem getSession_eq (SnakeString : String → String)
    (IsFieldValueAllowedForDB : String → Bool) (owner : String) (offset limit : Int)
    (field value sortField sortOrder : String) :
    GetSession SnakeString IsFieldValueAllowedForDB owner offset limit field value sortField
        sortOrder =
      if sortOrder = "ascend" then
        sessionBeforeOrder SnakeString IsFieldValueAllowedForDB owner offset limit field value ++
          [SessionCall.Asc (orderColumn SnakeString sortField sortOrder)]
      else
        sessionBeforeOrder SnakeString IsFieldValueAllowedForDB owner offset limit field value ++
          [SessionCall.Desc (orderColumn SnakeString sortField sortOrder)] := rfl

theorem and_mem_sessionBeforeOrder (SnakeString : String → String)
    (IsFieldValueAllowedForDB : String → Bool) (owner : String) (offset limit : Int)
    (field value : String) (query : String) (args : List String)
    (h : SessionCall.And query args ∈
      sessionBeforeOrder SnakeString IsFieldValueAllowedForDB owner offset limit field value) :
    (query = "LOWER(owner) = LOWER(?)" ∧ args = [owner]) ∨
      (query = "LOWER(" ++ SnakeString field ++ ") LIKE LOWER(?)" ∧
        matchLowerSnake (SnakeString field) = true ∧ field ≠ "" ∧
        IsFieldValueAllowedForDB field = true) := by
  generalize hq : "LOWER(owner) = LOWER(?)" = ownerQuery
  unfold sessionBeforeOrder at h
  simp only [hq] at h
  by_cases hm : matchLowerSnake (SnakeString field) = true
  · simp only [hm, Bool.not_true, Bool.false_eq_true, if_false] at h
    by_cases hf : field = ""
    · simp only [hf, ne_eq, not_true_eq_false, if_false] at h
      split_ifs at h <;>
        simp only [List.mem_append, List.mem_singleton, List.mem_cons, List.not_mem_nil,
          SessionCall.And.injEq, reduceCtorEq, false_or, or_false] at h
      all_goals exact Or.inl h
    · simp only [ne_eq, hf, not_false_eq_true, if_true] at h
      by_cases ha : IsFieldValueAllowedForDB field = true
      · simp only [ha, if_true] at h
        split_ifs at h <;>
          simp only [List.mem_append, List.mem_singleton, List.mem_cons, List.not_mem_nil,
            SessionCall.And.injEq, reduceCtorEq, false_or, or_false] at h
        all_goals
          first
          | exact Or.inr ⟨h.1, hm, hf, ha⟩
          | (rcases h with h | h
             · exact Or.inl h
             · exact Or.inr ⟨h.1, hm, hf, ha⟩)
      · rw [if_neg ha] at h
        split_ifs at h <;>
          simp only [List.mem_append, List.mem_singleton, List.mem_cons, List.not_mem_nil,
            SessionCall.And.injEq, reduceCtorEq, false_or, or_false] at h
        all_goals exact Or.inl h
  · simp only [hm, Bool.not_false, if_true, ne_eq, not_true_eq_false, if_false] at h
    split_ifs at h <;>
      simp only [List.mem_append, List.mem_singleton, List.mem_cons, List.not_mem_nil,
        SessionCall.And.injEq, reduceCtorEq, false_or, or_false] at h
    all_goals exact Or.inl h

theorem order_not_mem_sessionBeforeOrder (SnakeString : String → String)
    (IsFieldValueAllowedForDB : String → Bool) (owner : String) (offset limit : Int)
    (field value : String) (c : String) :
    SessionCall.Asc c ∉
        sessionBeforeOrder SnakeString IsFieldValueAllowedForDB owner offset limit field value ∧
      SessionCall.Desc c ∉
        sessionBeforeOrder SnakeString IsFieldValueAllowedForDB owner offset limit field value := by
  unfold sessionBeforeOrder
  constructor <;> intro h <;> simp only [] at h <;> (repeat' split at h) <;>
    simp only [List.mem_append, List.mem_singleton, List.mem_cons, List.not_mem_nil,
      reduceCtorEq, or_false] at h

theorem orderColumn_cases (SnakeString : String → String) (sortField sortOrder : String) :
    ((orderColumn SnakeString sortField sortOrder = SnakeString sortField ∧
        matchLowerSnake (SnakeString sortField) = true) ∨
      orderColumn SnakeString sortField sortOrder = SnakeString "created_time") ∧
    (sortField = "" ∨ sortOrder = "" →
      orderColumn SnakeString sortField sortOrder = SnakeString "created_time") := by
  unfold orderColumn
  constructor
  · by_cases he : sortField = "" ∨ sortOrder = ""
    · right
      simp only [he, if_true]
      split_ifs <;> rfl
    · simp only [he, if_false]
      by_cases hm : matchLowerSnake (SnakeString sortField) = true
      · left
        simp only [hm, Bool.not_true, Bool.false_eq_true, if_false, and_self]
      · right
        simp only [hm, Bool.not_false, if_true]
  · intro he
    simp only [he, if_true]
    split_ifs <;> rfl

/-! ## Properties of the table -/

/-- C1: Finished and Cancelled are terminal.  Their `Transitions` map is nil,
so for every role the transition set is empty and the membership test is false
for every target state. -/
theorem finished_cancelled_terminal :
    (stateOf SubscriptionFinished).Transitions = none ∧
    (stateOf SubscriptionCancelled).Transitions = none ∧
    ∀ (r : UserRole) (t : SubscriptionStateName),
      transitionsOf SubscriptionFinished r = none ∧
      transitionsOf SubscriptionCancelled r = none ∧
      SubscriptionStateNames.Contains (transitionsOf SubscriptionFinished r) t = false ∧
      SubscriptionStateNames.Contains (transitionsOf SubscriptionCancelled r) t = false := by
  refine ⟨transitions_Finished, transitions_Cancelled, fun r t => ?_⟩
  have hF : transitionsOf SubscriptionFinished r = none := by
    unfold transitionsOf; rw [transitions_Finished]; rfl
  have hC : transitionsOf SubscriptionCancelled r = none := by
    unfold transitionsOf; rw [transitions_Cancelled]; rfl
  exact ⟨hF, hC, by rw [hF]; rfl, by rw [hC]; rfl⟩

/-- C2: the table has no dangling transitions.  Each of the nine state names
is a key of the table, and every target in the transition set of any role in
any state of the table is itself a key of the table. -/
theorem no_dangling_transitions :
    (GoMap.hasKey SubscriptionStateMap SubscriptionNew = true ∧
     GoMap.hasKey SubscriptionStateMap SubscriptionPending = true ∧
     GoMap.hasKey SubscriptionStateMap SubscriptionPreAuthorized = true ∧
     GoMap.hasKey SubscriptionStateMap SubscriptionUnauthorized = true ∧
     GoMap.hasKey SubscriptionStateMap SubscriptionAuthorized = true ∧
     GoMap.hasKey SubscriptionStateMap SubscriptionStarted = true ∧
     GoMap.hasKey SubscriptionStateMap SubscriptionPreFinished = true ∧
     GoMap.hasKey SubscriptionStateMap SubscriptionFinished = true ∧
     GoMap.hasKey SubscriptionStateMap SubscriptionCancelled = true) ∧
    ∀ (s : SubscriptionStateName) (r : UserRole) (t : SubscriptionStateName),
      GoMap.hasKey SubscriptionStateMap s = true →
      SubscriptionStateNames.Contains (transitionsOf s r) t = true →
      GoMap.hasKey SubscriptionStateMap t = true := by
  refine ⟨by decide, fun s r t _ h => ?_⟩
  rw [contains_transitions_iff] at h
  simp only [tableTransitions, List.mem_cons, List.mem_singleton, List.not_mem_nil,
    or_false, Prod.mk.injEq] at h
  rcases h with h | h | h | h | h | h | h | h | h <;>
    (obtain ⟨_, _, h3⟩ := h; subst h3; decide)

/-- C2 at the transition Unauthorized → Cancelled of a partner. -/
theorem no_dangling_transitions_witness :
    GoMap.hasKey SubscriptionStateMap SubscriptionUnauthorized = true ∧
    SubscriptionStateNames.Contains
      (transitionsOf SubscriptionUnauthorized UserRolePartner) SubscriptionCancelled = true ∧
    GoMap.hasKey SubscriptionStateMap SubscriptionCancelled = true :=
  ⟨by decide, by decide,
    no_dangling_transitions.2 SubscriptionUnauthorized UserRolePartner SubscriptionCancelled
      (by decide) (by decide)⟩

/-- C3, as stated, fails: no role has the edge Pending → PreAuthorized of the
lifecycle summary in its transition set. -/
theorem lifecycle_edges_counterexample :
    ¬ ∃ r : UserRole, SubscriptionStateNames.Contains
        (transitionsOf SubscriptionPending r) SubscriptionPreAuthorized = true := by
  exact not_tableEdge_of SubscriptionPending SubscriptionPreAuthorized (by decide)

/-- C3, amended: collapsed across roles the table holds seven of the ten edges
of the lifecycle summary (New → Pending, PreAuthorized → Authorized,
Authorized → Started, Started → PreFinished, PreFinished → Finished,
PreAuthorized → Cancelled, Unauthorized → Cancelled); no role has
Pending → PreAuthorized, Pending → Unauthorized or Unauthorized → Authorized.
Following table transitions, the states reachable from New are New and Pending
only, and Finished is reachable from PreAuthorized. -/
theorem lifecycle_edges_in_table :
    (tableEdge SubscriptionNew SubscriptionPending ∧
     tableEdge SubscriptionPreAuthorized SubscriptionAuthorized ∧
     tableEdge SubscriptionAuthorized SubscriptionStarted ∧
     tableEdge SubscriptionStarted SubscriptionPreFinished ∧
     tableEdge SubscriptionPreFinished SubscriptionFinished ∧
     tableEdge SubscriptionPreAuthorized SubscriptionCancelled ∧
     tableEdge SubscriptionUnauthorized SubscriptionCancelled) ∧
    (¬ tableEdge SubscriptionPending SubscriptionPreAuthorized ∧
     ¬ tableEdge SubscriptionPending SubscriptionUnauthorized ∧
     ¬ tableEdge SubscriptionUnauthorized SubscriptionAuthorized) ∧
    (∀ t : SubscriptionStateName,
      Relation.ReflTransGen tableEdge SubscriptionNew t ↔
        (t = SubscriptionNew ∨ t = SubscriptionPending)) ∧
    Relation.ReflTransGen tableEdge SubscriptionPreAuthorized SubscriptionFinished := by
  have e1 : tableEdge SubscriptionNew SubscriptionPending := ⟨UserRolePartner, by decide⟩
  have e2 : tableEdge SubscriptionPreAuthorized SubscriptionAuthorized :=
    ⟨UserRolePartner, by decide⟩
  have e3 : tableEdge SubscriptionAuthorized SubscriptionStarted :=
    ⟨UserRoleDistributor, by decide⟩
  have e4 : tableEdge SubscriptionStarted SubscriptionPreFinished :=
    ⟨UserRolePartner, by decide⟩
  have e5 : tableEdge SubscriptionPreFinished SubscriptionFinished :=
    ⟨UserRoleDistributor, by decide⟩
  refine ⟨⟨e1, e2, e3, e4, e5, ⟨UserRolePartner, by decide⟩, ⟨UserRolePartner, by decide⟩⟩,
    ⟨?_, ?_, ?_⟩, ?_, ?_⟩
  · exact not_tableEdge_of _ _ (by decide)
  · exact not_tableEdge_of _ _ (by decide)
  · exact not_tableEdge_of _ _ (by decide)
  · intro t
    constructor
    · exact reachable_from_New t
    · rintro (h | h) <;> subst h
      · exact Relation.ReflTransGen.refl
      · exact Relation.ReflTransGen.single e1
  · exact (((Relation.ReflTransGen.single e2).tail e3).tail e4).tail e5

/-- C4: a role that is no key of a state's `FieldPermissions` has no write
permission there, for every state name, a key of the table or not: the
membership test is false for every field, so the table check names every field
of a non-empty changed set as offending. -/
theorem absent_role_no_field_permission (s : SubscriptionStateName) (r : UserRole)
    (h : GoMap.hasKey (stateOf s).FieldPermissions r = false) :
    (∀ f : SubscriptionFieldName,
      SubscriptionFieldNames.Contains (fieldPermissionsOf s r) f = false) ∧
    ∀ changed : List SubscriptionFieldName, changed ≠ [] →
      offendingFields s r changed = changed ∧ offendingFields s r changed ≠ [] := by
  have hnil : fieldPermissionsOf s r = none := index_of_not_hasKey none _ r h
  have hf : ∀ f : SubscriptionFieldName,
      SubscriptionFieldNames.Contains (fieldPermissionsOf s r) f = false := by
    intro f; rw [hnil]; rfl
  refine ⟨hf, fun changed hne => ?_⟩
  have heq : offendingFields s r changed = changed := by
    unfold offendingFields
    rw [List.filter_eq_self]
    intro f _
    simp [hf f]
  exact ⟨heq, by rw [heq]; exact hne⟩

/-- C4 at a distributor in state New changing Name, and at a partner in a state
name that is no key of the table. -/
theorem absent_role_no_field_permission_witness :
    (GoMap.hasKey (stateOf SubscriptionNew).FieldPermissions UserRoleDistributor = false ∧
      SubscriptionFieldNames.Contains
        (fieldPermissionsOf SubscriptionNew UserRoleDistributor) SubscriptionFieldNameName = false ∧
      offendingFields SubscriptionNew UserRoleDistributor [SubscriptionFieldNameName] =
        [SubscriptionFieldNameName]) ∧
    (GoMap.hasKey (stateOf "Archived").FieldPermissions UserRolePartner = false ∧
      SubscriptionFieldNames.Contains
        (fieldPermissionsOf "Archived" UserRolePartner) SubscriptionFieldNameName = false) :=
  ⟨⟨by decide,
    (absent_role_no_field_permission SubscriptionNew UserRoleDistributor (by decide)).1
      SubscriptionFieldNameName,
    ((absent_role_no_field_permission SubscriptionNew UserRoleDistributor (by decide)).2
      [SubscriptionFieldNameName] (by decide)).1⟩,
   ⟨by decide,
    (absent_role_no_field_permission "Archived" UserRolePartner (by decide)).1
      SubscriptionFieldNameName⟩⟩

/-- C5: from a state whose transition set is nil or empty for every role, the
membership test is false for every role and every other target state; among
the states of the table these are exactly Pending, Finished and Cancelled. -/
theorem no_transitions_rejects :
    (∀ s : SubscriptionStateName,
      (∀ r : UserRole, transitionsOf s r = none ∨ transitionsOf s r = some []) →
      ∀ (r : UserRole) (t : SubscriptionStateName), t ≠ s →
        SubscriptionStateNames.Contains (transitionsOf s r) t = false) ∧
    (∀ s : SubscriptionStateName, GoMap.hasKey SubscriptionStateMap s = true →
      ((∀ r : UserRole, transitionsOf s r = none ∨ transitionsOf s r = some []) ↔
        (s = SubscriptionPending ∨ s = SubscriptionFinished ∨ s = SubscriptionCancelled))) := by
  constructor
  · intro s h r t _
    rcases h r with h | h <;> rw [h] <;> rfl
  · intro s hk
    rw [hasKey_table_iff] at hk
    simp only [allStateNames, List.mem_cons, List.mem_singleton, List.not_mem_nil,
      or_false] at hk
    have none_of : ∀ a : SubscriptionStateName, (stateOf a).Transitions = none →
        ∀ r : UserRole, transitionsOf a r = none ∨ transitionsOf a r = some [] := by
      intro a ha r
      left; unfold transitionsOf; rw [ha]; rfl
    have some_of : ∀ (a : SubscriptionStateName) (r : UserRole),
        transitionsOf a r ≠ none → transitionsOf a r ≠ some [] →
        ¬ ∀ r : UserRole, transitionsOf a r = none ∨ transitionsOf a r = some [] := by
      intro a r h1 h2 hall
      rcases hall r with h | h
      · exact h1 h
      · exact h2 h
    rcases hk with hk | hk | hk | hk | hk | hk | hk | hk | hk <;> subst hk
    · exact iff_of_false (some_of _ UserRolePartner (by decide) (by decide)) (by decide)
    · exact iff_of_true (none_of _ transitions_Pending) (by decide)
    · exact iff_of_false (some_of _ UserRolePartner (by decide) (by decide)) (by decide)
    · exact iff_of_false (some_of _ UserRolePartner (by decide) (by decide)) (by decide)
    · exact iff_of_false (some_of _ UserRoleDistributor (by decide) (by decide)) (by decide)
    · exact iff_of_false (some_of _ UserRolePartner (by decide) (by decide)) (by decide)
    · exact iff_of_false (some_of _ UserRoleDistributor (by decide) (by decide)) (by decide)
    · exact iff_of_true (none_of _ transitions_Finished) (by decide)
    · exact iff_of_true (none_of _ transitions_Cancelled) (by decide)

/-- C5 at a partner asking for Pending → PreAuthorized. -/
theorem no_transitions_rejects_witness :
    SubscriptionPreAuthorized ≠ SubscriptionPending ∧
    GoMap.hasKey SubscriptionStateMap SubscriptionPending = true ∧
    SubscriptionStateNames.Contains
      (transitionsOf SubscriptionPending UserRolePartner) SubscriptionPreAuthorized = false :=
  ⟨by decide, by decide,
    no_transitions_rejects.1 SubscriptionPending
      ((no_transitions_rejects.2 SubscriptionPending (by decide)).mpr (Or.inl rfl))
      UserRolePartner SubscriptionPreAuthorized (by decide)⟩

/-- C6: the admin role is outside the table.  For every state name, admin is a
key of neither `FieldPermissions` nor `Transitions`; every role that is a key
of either map in any state is partner or distributor, and both of these do
occur as keys. -/
theorem admin_outside_table :
    (∀ s : SubscriptionStateName,
      GoMap.hasKey (stateOf s).FieldPermissions UserRoleGlobalAdmin = false ∧
      GoMap.hasKey (stateOf s).Transitions UserRoleGlobalAdmin = false) ∧
    (∀ (s : SubscriptionStateName) (r : UserRole),
      GoMap.hasKey (stateOf s).FieldPermissions r = true ∨
        GoMap.hasKey (stateOf s).Transitions r = true →
      r = UserRolePartner ∨ r = UserRoleDistributor) ∧
    (GoMap.hasKey (stateOf SubscriptionNew).FieldPermissions UserRolePartner = true ∧
     GoMap.hasKey (stateOf SubscriptionNew).Transitions UserRolePartner = true ∧
     GoMap.hasKey (stateOf SubscriptionAuthorized).FieldPermissions UserRoleDistributor = true ∧
     GoMap.hasKey (stateOf SubscriptionAuthorized).Transitions UserRoleDistributor = true) := by
  refine ⟨fun s => ⟨?_, ?_⟩, role_key_cases, by decide⟩
  · rw [← Bool.not_eq_true]
    intro h
    exact absurd (role_key_cases s UserRoleGlobalAdmin (Or.inl h)) (by decide)
  · rw [← Bool.not_eq_true]
    intro h
    exact absurd (role_key_cases s UserRoleGlobalAdmin (Or.inr h)) (by decide)

/-- C6 at the transitions of state Authorized: its role key is distributor. -/
theorem admin_outside_table_witness :
    GoMap.hasKey (stateOf SubscriptionAuthorized).Transitions UserRoleDistributor = true ∧
    (UserRoleDistributor = UserRolePartner ∨ UserRoleDistributor = UserRoleDistributor) :=
  ⟨by decide,
    admin_outside_table.2.1 SubscriptionAuthorized UserRoleDistributor (Or.inr (by decide))⟩

/-- C7: for a partner in state New the field Discount is permitted and the
field End Date is not, so the changed set with Discount alone has no offending
field and the offending fields of the changed set with End Date alone are
exactly End Date. -/
theorem partner_new_fields :
    SubscriptionFieldNames.Contains
      (fieldPermissionsOf SubscriptionNew UserRolePartner) SubscriptionFieldNameDiscount = true ∧
    SubscriptionFieldNames.Contains
      (fieldPermissionsOf SubscriptionNew UserRolePartner) SubscriptionFieldNameEndDate = false ∧
    offendingFields SubscriptionNew UserRolePartner [SubscriptionFieldNameDiscount] = [] ∧
    offendingFields SubscriptionNew UserRolePartner [SubscriptionFieldNameEndDate] =
      [SubscriptionFieldNameEndDate] := by
  decide

/-- C8: in state New the transitions of a partner are Pending only: the
membership test is true exactly at Pending, so New → Authorized is rejected and
New → Pending accepted. -/
theorem partner_new_transitions :
    (∀ t : SubscriptionStateName,
      SubscriptionStateNames.Contains (transitionsOf SubscriptionNew UserRolePartner) t = true ↔
        t = SubscriptionPending) ∧
    transitionsOf SubscriptionNew UserRolePartner = some [SubscriptionPending] ∧
    SubscriptionStateNames.Contains
      (transitionsOf SubscriptionNew UserRolePartner) SubscriptionAuthorized = false ∧
    SubscriptionStateNames.Contains
      (transitionsOf SubscriptionNew UserRolePartner) SubscriptionPending = true := by
  have h : transitionsOf SubscriptionNew UserRolePartner = some [SubscriptionPending] := by
    decide
  refine ⟨fun t => ?_, h, by decide, by decide⟩
  rw [h, stateNames_contains_some]
  simp

/-- C9: for a distributor in state Authorized both table checks pass: Start
Date is among the permitted fields and Started among the transitions. -/
theorem distributor_authorized_start :
    SubscriptionFieldNames.Contains
      (fieldPermissionsOf SubscriptionAuthorized UserRoleDistributor)
      SubscriptionFieldNameStartDate = true ∧
    SubscriptionStateNames.Contains
      (transitionsOf SubscriptionAuthorized UserRoleDistributor) SubscriptionStarted = true ∧
    offendingFields SubscriptionAuthorized UserRoleDistributor
      [SubscriptionFieldNameStartDate] = [] := by
  decide

/-- C10, as stated, fails: in state Finished no role has both Description and
Comment among its permitted fields. -/
theorem terminal_comment_counterexample :
    ¬ ∃ r : UserRole,
      SubscriptionFieldNames.Contains
        (fieldPermissionsOf SubscriptionFinished r) SubscriptionFieldNameDescription = true ∧
      SubscriptionFieldNames.Contains
        (fieldPermissionsOf SubscriptionFinished r) SubscriptionFieldNameComment = true := by
  rintro ⟨r, -, h⟩
  unfold fieldPermissionsOf at h
  rw [fieldPermissions_Finished, index_single] at h
  split at h
  · exact absurd h (by decide)
  · exact absurd h (by simp [fieldNames_contains_nil])

/-- C10, amended: in the terminal states Finished and Cancelled the permitted
field edits are Display Name and Description, for a partner only: the
membership test is true exactly for the role partner and these two fields, so
Description is permitted for a partner and Comment for no role. -/
theorem terminal_field_permissions :
    ∀ s : SubscriptionStateName, s = SubscriptionFinished ∨ s = SubscriptionCancelled →
      (∀ (r : UserRole) (f : SubscriptionFieldName),
        SubscriptionFieldNames.Contains (fieldPermissionsOf s r) f = true ↔
          (r = UserRolePartner ∧
            (f = SubscriptionFieldNameDisplayName ∨ f = SubscriptionFieldNameDescription))) ∧
      SubscriptionFieldNames.Contains
        (fieldPermissionsOf s UserRolePartner) SubscriptionFieldNameDescription = true ∧
      (∀ r : UserRole,
        SubscriptionFieldNames.Contains
          (fieldPermissionsOf s r) SubscriptionFieldNameComment = false) := by
  intro s hs
  have hperm : (stateOf s).FieldPermissions =
      some [(UserRolePartner, some [SubscriptionFieldNameDisplayName,
        SubscriptionFieldNameDescription])] := by
    rcases hs with h | h <;> subst h
    · exact fieldPermissions_Finished
    · exact fieldPermissions_Cancelled
  have hiff : ∀ (r : UserRole) (f : SubscriptionFieldName),
      SubscriptionFieldNames.Contains (fieldPermissionsOf s r) f = true ↔
        (r = UserRolePartner ∧
          (f = SubscriptionFieldNameDisplayName ∨ f = SubscriptionFieldNameDescription)) := by
    intro r f
    unfold fieldPermissionsOf
    rw [hperm, index_single]
    split
    · rename_i hr
      rw [fieldNames_contains_some]
      simp [hr.symm]
    · rename_i hr
      have hr2 : ¬ r = UserRolePartner := fun e => hr e.symm
      simp [fieldNames_contains_nil, hr2]
  refine ⟨hiff, (hiff _ _).mpr ⟨rfl, Or.inr rfl⟩, fun r => ?_⟩
  rw [← Bool.not_eq_true, hiff]
  rintro ⟨-, h | h⟩ <;> exact absurd h (by decide)

/-- C10, amended, at state Cancelled: a partner may edit Description and no
distributor may edit Comment. -/
theorem terminal_field_permissions_witness :
    (SubscriptionCancelled = SubscriptionFinished ∨
      SubscriptionCancelled = SubscriptionCancelled) ∧
    SubscriptionFieldNames.Contains
      (fieldPermissionsOf SubscriptionCancelled UserRolePartner)
      SubscriptionFieldNameDescription = true ∧
    SubscriptionFieldNames.Contains
      (fieldPermissionsOf SubscriptionCancelled UserRoleDistributor)
      SubscriptionFieldNameComment = false :=
  ⟨Or.inr rfl,
    (terminal_field_permissions SubscriptionCancelled (Or.inr rfl)).2.1,
    (terminal_field_permissions SubscriptionCancelled (Or.inr rfl)).2.2 UserRoleDistributor⟩

/-- C11, as stated, fails: PreAuthorized is a state of the table other than
New, and no role's transition set in any state contains it. -/
theorem unique_initial_counterexample :
    SubscriptionPreAuthorized ≠ SubscriptionNew ∧
    GoMap.hasKey SubscriptionStateMap SubscriptionPreAuthorized = true ∧
    ¬ ∃ (s : SubscriptionStateName) (r : UserRole),
      SubscriptionStateNames.Contains (transitionsOf s r) SubscriptionPreAuthorized = true := by
  refine ⟨by decide, by decide, ?_⟩
  rintro ⟨s, r, h⟩
  rw [not_target_of SubscriptionPreAuthorized (by decide) s r] at h
  exact absurd h (by decide)

/-- C11, amended: no role's transition set in any state contains New, and the
states of the table that are in no transition set are exactly New,
PreAuthorized and Unauthorized; each of the other six is the target of some
role's transition from some state. -/
theorem initial_states_of_table :
    (∀ (s : SubscriptionStateName) (r : UserRole),
      SubscriptionStateNames.Contains (transitionsOf s r) SubscriptionNew = false) ∧
    (∀ t : SubscriptionStateName, GoMap.hasKey SubscriptionStateMap t = true →
      ((∀ (s : SubscriptionStateName) (r : UserRole),
          SubscriptionStateNames.Contains (transitionsOf s r) t = false) ↔
        (t = SubscriptionNew ∨ t = SubscriptionPreAuthorized ∨
          t = SubscriptionUnauthorized))) := by
  refine ⟨not_target_of SubscriptionNew (by decide), fun t hk => ?_⟩
  rw [hasKey_table_iff] at hk
  simp only [allStateNames, List.mem_cons, List.mem_singleton, List.not_mem_nil,
    or_false] at hk
  have target : ∀ (a : SubscriptionStateName) (s : SubscriptionStateName) (r : UserRole),
      SubscriptionStateNames.Contains (transitionsOf s r) a = true →
      ¬ ∀ (s : SubscriptionStateName) (r : UserRole),
        SubscriptionStateNames.Contains (transitionsOf s r) a = false := by
    intro a s r h hall
    rw [hall s r] at h
    exact absurd h (by decide)
  rcases hk with hk | hk | hk | hk | hk | hk | hk | hk | hk <;> subst hk
  · exact iff_of_true (not_target_of _ (by decide)) (by decide)
  · exact iff_of_false (target _ SubscriptionNew UserRolePartner (by decide)) (by decide)
  · exact iff_of_true (not_target_of _ (by decide)) (by decide)
  · exact iff_of_true (not_target_of _ (by decide)) (by decide)
  · exact iff_of_false (target _ SubscriptionPreAuthorized UserRolePartner (by decide))
      (by decide)
  · exact iff_of_false (target _ SubscriptionAuthorized UserRoleDistributor (by decide))
      (by decide)
  · exact iff_of_false (target _ SubscriptionStarted UserRolePartner (by decide)) (by decide)
  · exact iff_of_false (target _ SubscriptionPreFinished UserRoleDistributor (by decide))
      (by decide)
  · exact iff_of_false (target _ SubscriptionPreAuthorized UserRolePartner (by decide))
      (by decide)

/-- C11, amended, at Unauthorized: a key of the table that is the target of no
transition, here checked for a partner in state Pending. -/
theorem initial_states_of_table_witness :
    GoMap.hasKey SubscriptionStateMap SubscriptionUnauthorized = true ∧
    SubscriptionStateNames.Contains
      (transitionsOf SubscriptionPending UserRolePartner) SubscriptionUnauthorized = false :=
  ⟨by decide,
    (initial_states_of_table.2 SubscriptionUnauthorized (by decide)).mpr
      (Or.inr (Or.inr rfl)) SubscriptionPending UserRolePartner⟩

/-- C12: Unauthorized → Pending is the sole reverse edge of the table.  Every
transition of any role goes to a state strictly later in the lifecycle order,
or is Unauthorized → Pending; that edge is present for a role and does go
backwards. -/
theorem retry_edge_sole_reverse :
    (∀ (s : SubscriptionStateName) (r : UserRole) (t : SubscriptionStateName),
      SubscriptionStateNames.Contains (transitionsOf s r) t = true →
      lifecycleRank s < lifecycleRank t ∨
        (s = SubscriptionUnauthorized ∧ t = SubscriptionPending)) ∧
    (∃ r : UserRole, SubscriptionStateNames.Contains
      (transitionsOf SubscriptionUnauthorized r) SubscriptionPending = true) ∧
    lifecycleRank SubscriptionPending < lifecycleRank SubscriptionUnauthorized := by
  refine ⟨fun s r t h => ?_, ⟨UserRolePartner, by decide⟩, by decide⟩
  rw [contains_transitions_iff] at h
  simp only [tableTransitions, List.mem_cons, List.mem_singleton, List.not_mem_nil,
    or_false, Prod.mk.injEq] at h
  rcases h with h | h | h | h | h | h | h | h | h <;>
    (obtain ⟨h1, _, h3⟩ := h; subst h1; subst h3; decide)

/-- C12 at the forward edge Authorized → Started of a distributor. -/
theorem retry_edge_sole_reverse_witness :
    SubscriptionStateNames.Contains
      (transitionsOf SubscriptionAuthorized UserRoleDistributor) SubscriptionStarted = true ∧
    (lifecycleRank SubscriptionAuthorized < lifecycleRank SubscriptionStarted ∨
      (SubscriptionAuthorized = SubscriptionUnauthorized ∧
        SubscriptionStarted = SubscriptionPending)) :=
  ⟨by decide,
    retry_edge_sole_reverse.1 SubscriptionAuthorized UserRoleDistributor SubscriptionStarted
      (by decide)⟩

/-- C13, as stated, fails: two forbidden attempts with the same target state
that differ in the source state and in the role get the same error. -/
theorem forbidden_error_counterexample :
    (StateChangeAttempt.mk SubscriptionNew SubscriptionAuthorized UserRolePartner).source ≠
      (StateChangeAttempt.mk SubscriptionPending SubscriptionAuthorized
        UserRoleDistributor).source ∧
    (StateChangeAttempt.mk SubscriptionNew SubscriptionAuthorized UserRolePartner).role ≠
      (StateChangeAttempt.mk SubscriptionPending SubscriptionAuthorized
        UserRoleDistributor).role ∧
    stateChangeForbiddenFor
        (StateChangeAttempt.mk SubscriptionNew SubscriptionAuthorized UserRolePartner) =
      stateChangeForbiddenFor
        (StateChangeAttempt.mk SubscriptionPending SubscriptionAuthorized
          UserRoleDistributor) := by
  refine ⟨by decide, by decide, rfl⟩

/-- C13, amended: the error for a forbidden state change is built from the
target state alone.  Its message is the fixed text followed by the name of the
target, so it names the target and errors for different targets differ, while
attempts with the same target get the same error whatever their source state
and role. -/
theorem forbidden_error_names_target :
    (∀ t : SubscriptionStateName,
      NewStateChangeForbiddenError t = "You are not allowed to change the state to " ++ t ∧
      t.data <:+ (NewStateChangeForbiddenError t).data) ∧
    (∀ t₁ t₂ : SubscriptionStateName,
      NewStateChangeForbiddenError t₁ = NewStateChangeForbiddenError t₂ ↔ t₁ = t₂) ∧
    (∀ a b : StateChangeAttempt,
      stateChangeForbiddenFor a = stateChangeForbiddenFor b ↔ a.target = b.target) := by
  refine ⟨fun t => ⟨rfl, ?_⟩, fun t₁ t₂ => ⟨forbiddenError_injective t₁ t₂, fun h => congrArg _ h⟩,
    fun a b => ⟨forbiddenError_injective a.target b.target, fun h => ?_⟩⟩
  · unfold NewStateChangeForbiddenError
    rw [String.data_append]
    exact List.suffix_append _ _
  · unfold stateChangeForbiddenFor
    rw [h]

/-- C14: both membership tests decide membership exactly.  On a non-nil slice
the result is true if and only if the name is an element, and on the nil slice
and on the empty slice the result is false. -/
theorem contains_iff_mem :
    (∀ (s : List SubscriptionStateName) (n : SubscriptionStateName),
      SubscriptionStateNames.Contains (some s) n = true ↔ n ∈ s) ∧
    (∀ n : SubscriptionStateName,
      SubscriptionStateNames.Contains none n = false ∧
      SubscriptionStateNames.Contains (some []) n = false) ∧
    (∀ (f : List SubscriptionFieldName) (m : SubscriptionFieldName),
      SubscriptionFieldNames.Contains (some f) m = true ↔ m ∈ f) ∧
    (∀ m : SubscriptionFieldName,
      SubscriptionFieldNames.Contains none m = false ∧
      SubscriptionFieldNames.Contains (some []) m = false) :=
  ⟨stateNames_contains_some, fun _ => ⟨rfl, rfl⟩, fieldNames_contains_some,
    fun _ => ⟨rfl, rfl⟩⟩

/-- C15: the function `GetMaskedCert` never exposes a private key and changes
nothing else.  For nil it returns nil and leaves the heap as it is; for a
pointer to a certificate it returns the same pointer, the private key of that
certificate is empty when it was empty and three stars otherwise, each other
field and each other certificate is unchanged, and a second application changes
nothing. -/
theorem getMaskedCert_masks :
    (∀ heap : CertHeap, GetMaskedCert heap none = (heap, none)) ∧
    (∀ (heap : CertHeap) (a : Nat),
      (GetMaskedCert heap (some a)).2 = some a ∧
      ((GetMaskedCert heap (some a)).1 a).PrivateKey =
        (if (heap a).PrivateKey = "" then "" else "***") ∧
      (((GetMaskedCert heap (some a)).1 a).Owner = (heap a).Owner ∧
       ((GetMaskedCert heap (some a)).1 a).Name = (heap a).Name ∧
       ((GetMaskedCert heap (some a)).1 a).CreatedTime = (heap a).CreatedTime ∧
       ((GetMaskedCert heap (some a)).1 a).DisplayName = (heap a).DisplayName ∧
       ((GetMaskedCert heap (some a)).1 a).Scope = (heap a).Scope ∧
       ((GetMaskedCert heap (some a)).1 a).Type_ = (heap a).Type_ ∧
       ((GetMaskedCert heap (some a)).1 a).CryptoAlgorithm = (heap a).CryptoAlgorithm ∧
       ((GetMaskedCert heap (some a)).1 a).BitSize = (heap a).BitSize ∧
       ((GetMaskedCert heap (some a)).1 a).ExpireInYears = (heap a).ExpireInYears ∧
       ((GetMaskedCert heap (some a)).1 a).Certificate = (heap a).Certificate) ∧
      (∀ b : Nat, b ≠ a → (GetMaskedCert heap (some a)).1 b = heap b) ∧
      GetMaskedCert (GetMaskedCert heap (some a)).1 (GetMaskedCert heap (some a)).2 =
        GetMaskedCert heap (some a)) := by
  refine ⟨fun _ => rfl, fun heap a => ⟨getMaskedCert_ptr heap (some a), ?_, ?_, ?_, ?_⟩⟩
  · rw [getMaskedCert_heap, if_pos rfl, maskedValue_privateKey]
  · rw [getMaskedCert_heap, if_pos rfl]
    unfold maskedValue
    by_cases hk : (heap a).PrivateKey = "" <;> simp [hk]
  · intro b hb
    rw [getMaskedCert_heap]
    have : ¬ (some a : CertPtr) = some b := fun e => hb (Option.some.inj e).symm
    simp [this]
  · apply Prod.ext
    · funext b
      rw [getMaskedCert_ptr heap (some a), getMaskedCert_heap, getMaskedCert_heap]
      by_cases hab : (some a : CertPtr) = some b <;> simp [hab, maskedValue_idem]
    · simp only [getMaskedCert_ptr]

/-- C15 on a heap whose every cell holds a certificate with a private key: the
certificate at address 0 is masked and the one at address 1 is untouched. -/
theorem getMaskedCert_masks_witness :
    (1 : Nat) ≠ 0 ∧
    ((GetMaskedCert (fun _ => Cert.mk "org" "cert-a" "" "" "JWT" "x509" "RS256" 4096 20 "pem"
        "secret") (some 0)).1 0).PrivateKey = "***" ∧
    (GetMaskedCert (fun _ => Cert.mk "org" "cert-a" "" "" "JWT" "x509" "RS256" 4096 20 "pem"
        "secret") (some 0)).1 1 =
      Cert.mk "org" "cert-a" "" "" "JWT" "x509" "RS256" 4096 20 "pem" "secret" :=
  ⟨by decide, by decide,
    (getMaskedCert_masks.2 (fun _ => Cert.mk "org" "cert-a" "" "" "JWT" "x509" "RS256" 4096 20
      "pem" "secret") 0).2.2.2.1 1 (by decide)⟩

/-- C16: the function `GetMaskedCerts` masks every certificate of the list or
passes the error on.  With an error it returns the nil slice and that error and
leaves the heap as it is; without one it returns no error and the slice it was
given, every certificate the slice points to is what `GetMaskedCert` makes of
it, with a private key that is empty or three stars, and every certificate the
slice does not point to is unchanged. -/
theorem getMaskedCerts_masks_all :
    (∀ (heap : CertHeap) (certs : Option (List CertPtr)) (e : String),
      GetMaskedCerts heap certs (some e) = (heap, none, some e)) ∧
    (∀ (heap : CertHeap) (certs : Option (List CertPtr)),
      (GetMaskedCerts heap certs none).2.2 = none ∧
      (GetMaskedCerts heap certs none).2.1 = certs ∧
      (∀ a : Nat, some a ∈ certs.getD [] →
        (GetMaskedCerts heap certs none).1 a = (GetMaskedCert heap (some a)).1 a ∧
        (((GetMaskedCerts heap certs none).1 a).PrivateKey = "" ∨
          ((GetMaskedCerts heap certs none).1 a).PrivateKey = "***")) ∧
      (∀ a : Nat, some a ∉ certs.getD [] → (GetMaskedCerts heap certs none).1 a = heap a)) := by
  refine ⟨fun _ _ _ => rfl, fun heap certs => ⟨rfl, rfl, fun a ha => ?_, fun a ha => ?_⟩⟩
  · have hval : (GetMaskedCerts heap certs none).1 a = maskedValue (heap a) := by
      show maskCertsLoop heap (certs.getD []) a = _
      rw [maskCertsLoop_heap, if_pos ha]
    refine ⟨?_, ?_⟩
    · rw [hval, getMaskedCert_heap, if_pos rfl]
    · rw [hval, maskedValue_privateKey]
      by_cases hk : (heap a).PrivateKey = "" <;> simp [hk]
  · show maskCertsLoop heap (certs.getD []) a = _
    rw [maskCertsLoop_heap, if_neg ha]

/-- C16 on a slice with a nil entry and two pointers to the same certificate:
the certificate at address 0 is masked, the one at address 1 is untouched. -/
theorem getMaskedCerts_masks_all_witness :
    (((GetMaskedCerts (fun _ => Cert.mk "org" "cert-a" "" "" "JWT" "x509" "RS256" 4096 20 "pem"
        "secret") (some [some 0, none, some 0]) none).1 0).PrivateKey = "" ∨
      ((GetMaskedCerts (fun _ => Cert.mk "org" "cert-a" "" "" "JWT" "x509" "RS256" 4096 20 "pem"
        "secret") (some [some 0, none, some 0]) none).1 0).PrivateKey = "***") ∧
    (GetMaskedCerts (fun _ => Cert.mk "org" "cert-a" "" "" "JWT" "x509" "RS256" 4096 20 "pem"
        "secret") (some [some 0, none, some 0]) none).1 1 =
      Cert.mk "org" "cert-a" "" "" "JWT" "x509" "RS256" 4096 20 "pem" "secret" :=
  ⟨((getMaskedCerts_masks_all.2 (fun _ => Cert.mk "org" "cert-a" "" "" "JWT" "x509" "RS256"
      4096 20 "pem" "secret") (some [some 0, none, some 0])).2.2.1 0 (by decide)).2,
   (getMaskedCerts_masks_all.2 (fun _ => Cert.mk "org" "cert-a" "" "" "JWT" "x509" "RS256"
      4096 20 "pem" "secret") (some [some 0, none, some 0])).2.2.2 1 (by decide)⟩

/-- C17: the function `GetSession` places sanitised column names only.  Every
condition it adds is the owner condition or the filter on the snake-cased
field, and then the snake-cased field matches the pattern; there is one order
call, ascending exactly when the sort order is the word ascend, and its column
is the snake-cased sort field when that matches the pattern and the snake-cased
default created_time otherwise, the default being used whenever the sort field
or the sort order is empty. -/
theorem getSession_columns_sanitised (SnakeString : String → String)
    (IsFieldValueAllowedForDB : String → Bool) (owner : String) (offset limit : Int)
    (field value sortField sortOrder : String) :
    (∀ (query : String) (args : List String),
      SessionCall.And query args ∈ GetSession SnakeString IsFieldValueAllowedForDB owner offset
        limit field value sortField sortOrder →
      (query = "LOWER(owner) = LOWER(?)" ∧ args = [owner]) ∨
      (query = "LOWER(" ++ SnakeString field ++ ") LIKE LOWER(?)" ∧
        matchLowerSnake (SnakeString field) = true ∧ field ≠ "" ∧
        IsFieldValueAllowedForDB field = true)) ∧
    (∃ column : String,
      ((column = SnakeString sortField ∧ matchLowerSnake (SnakeString sortField) = true) ∨
        column = SnakeString "created_time") ∧
      (sortField = "" ∨ sortOrder = "" → column = SnakeString "created_time") ∧
      (SnakeString "created_time" = "created_time" → sortField = "" ∨ sortOrder = "" →
        column = "created_time") ∧
      (∀ c : String,
        SessionCall.Asc c ∈ GetSession SnakeString IsFieldValueAllowedForDB owner offset limit
          field value sortField sortOrder ↔ (sortOrder = "ascend" ∧ c = column)) ∧
      (∀ c : String,
        SessionCall.Desc c ∈ GetSession SnakeString IsFieldValueAllowedForDB owner offset limit
          field value sortField sortOrder ↔ (sortOrder ≠ "ascend" ∧ c = column))) := by
  refine ⟨fun query args h => ?_, orderColumn SnakeString sortField sortOrder,
    (orderColumn_cases SnakeString sortField sortOrder).1,
    (orderColumn_cases SnakeString sortField sortOrder).2,
    fun h1 he => ((orderColumn_cases SnakeString sortField sortOrder).2 he).trans h1,
    fun c => ?_, fun c => ?_⟩
  · rw [getSession_eq] at h
    apply and_mem_sessionBeforeOrder SnakeString IsFieldValueAllowedForDB owner offset limit
      field value query args
    split_ifs at h <;>
      simpa only [List.mem_append, List.mem_singleton, reduceCtorEq, or_false] using h
  · have hno := (order_not_mem_sessionBeforeOrder SnakeString IsFieldValueAllowedForDB owner
      offset limit field value c).1
    rw [getSession_eq]
    by_cases ho : sortOrder = "ascend"
    · simp only [ho, if_true, List.mem_append, List.mem_singleton, SessionCall.Asc.injEq,
        true_and]
      exact ⟨fun h => h.resolve_left hno, fun h => Or.inr h⟩
    · simp only [ho, if_false, List.mem_append, List.mem_singleton, reduceCtorEq, or_false,
        false_and, iff_false]
      exact hno
  · have hno := (order_not_mem_sessionBeforeOrder SnakeString IsFieldValueAllowedForDB owner
      offset limit field value c).2
    rw [getSession_eq]
    by_cases ho : sortOrder = "ascend"
    · simp only [ho, if_true, List.mem_append, List.mem_singleton, reduceCtorEq, or_false,
        ne_eq, not_true_eq_false, false_and, iff_false]
      exact hno
    · simp only [ho, if_false, List.mem_append, List.mem_singleton, SessionCall.Desc.injEq,
        ne_eq, not_false_eq_true, true_and]
      exact ⟨fun h => h.resolve_left hno, fun h => Or.inr h⟩

/-- C17 with the identity for the snake-casing helper, every field allowed, the
field name, the value ab, an empty sort field and the sort order ascend: the
filter condition is on the column name. -/
theorem getSession_columns_sanitised_witness :
    SessionCall.And "LOWER(name) LIKE LOWER(?)" ["%ab%"] ∈
      GetSession (fun x => x) (fun _ => true) "org" 0 10 "name" "ab" "" "ascend" ∧
    (("LOWER(name) LIKE LOWER(?)" = "LOWER(owner) = LOWER(?)" ∧ ["%ab%"] = ["org"]) ∨
      ("LOWER(name) LIKE LOWER(?)" = "LOWER(" ++ "name" ++ ") LIKE LOWER(?)" ∧
        matchLowerSnake "name" = true ∧ "name" ≠ "" ∧ true = true)) :=
  ⟨by decide,
    (getSession_columns_sanitised (fun x => x) (fun _ => true) "org" 0 10 "name" "ab" ""
      "ascend").1 "LOWER(name) LIKE LOWER(?)" ["%ab%"] (by decide)⟩

/-- C18 fails on the code: for a body that decodes to the empty list, or to
the nil slice, the first index expression is out of range, and for a list of
one rule the second one is; only a list of two rules or more passes both index
expressions. -/
theorem updatePolicy_index_out_of_range
    (objectUpdatePolicy : String → String → List String → List String → Except String Bool)
    (CasbinToSlice : CasbinRule → List String) (id : String) :
    UpdatePolicy objectUpdatePolicy CasbinToSlice id (Except.ok (some [])) =
      HandlerResult.indexOutOfRange 0 0 ∧
    UpdatePolicy objectUpdatePolicy CasbinToSlice id (Except.ok none) =
      HandlerResult.indexOutOfRange 0 0 ∧
    (∀ rule : CasbinRule,
      UpdatePolicy objectUpdatePolicy CasbinToSlice id (Except.ok (some [rule])) =
        HandlerResult.indexOutOfRange 1 1) ∧
    (∀ (first second : CasbinRule) (rest : List CasbinRule) (i n : Nat),
      UpdatePolicy objectUpdatePolicy CasbinToSlice id
        (Except.ok (some (first :: second :: rest))) ≠ HandlerResult.indexOutOfRange i n) := by
  refine ⟨rfl, rfl, fun _ => rfl, fun first second rest i n => ?_⟩
  simp only [UpdatePolicy, Option.getD_some, List.getElem?_cons_zero, List.getElem?_cons_succ]
  cases objectUpdatePolicy id first.Ptype (CasbinToSlice first) (CasbinToSlice second) <;>
    simp

end Casgate
